import Mathlib

/-!
Verification of the ACS/ACD animation decoder (`acs_agent_unpack`).

The binary decoder (`main.py`) is shallowly embedded over a byte source
modelled as a `List Nat` of bytes together with an explicit cursor
position.  Python file semantics are mirrored exactly:

* `f.read(n)` returns up to `n` bytes (fewer at end of file, never an
  error) and advances the cursor by the number of bytes returned;
* `struct.unpack` raises `struct.error` when handed the wrong number of
  bytes — modelled by the `Option`/`Except` results of the readers;
* `f.seek` is an unchecked cursor assignment (seeking past the end is
  allowed, as in Python).

The text-path decoder (`main2.py`) is embedded as a line-by-line state
machine over `List Char` lines.
-/

/-- Decidable equality for `Except`, so that concrete decoder runs can be
checked by `decide`. -/
instance {ε α : Type} [DecidableEq ε] [DecidableEq α] : DecidableEq (Except ε α) :=
  fun x y =>
    match x, y with
    | .ok a, .ok b =>
      if h : a = b then isTrue (by rw [h])
      else isFalse (fun hc => h (Except.ok.inj hc))
    | .error e, .error f =>
      if h : e = f then isTrue (by rw [h])
      else isFalse (fun hc => h (Except.error.inj hc))
    | .ok _, .error _ => isFalse (fun hc => Except.noConfusion hc)
    | .error _, .ok _ => isFalse (fun hc => Except.noConfusion hc)

namespace Acs

/-- Python strings on the binary path are handled as UTF-16 code-unit
lists (`bytes.decode('utf-16-le')` at the code-unit level). -/
abbrev PyStr := List Nat

/-- Model of Python `f.read(n)` at cursor `pos`: returns the bytes read
(possibly fewer than `n` at end of source) and the new cursor. -/
def pyread (src : List Nat) (pos n : Nat) : List Nat × Nat :=
  if pos ≤ src.length then
    ((src.drop pos).take n, min (pos + n) src.length)
  else
    ([], pos)

/-- Little-endian byte-list to natural number (first byte least
significant), as `struct.unpack('<I', ...)` / `('<H', ...)` compute. -/
def leNat : List Nat → Nat
  | [] => 0
  | b :: bs => b + 256 * leNat bs

/-- `read_ulong` (main.py line 9): 4 bytes little-endian; `none` models a
raised `struct.error` (fewer than 4 bytes available). -/
def read_ulong (src : List Nat) (pos : Nat) : Option Nat × Nat :=
  let (bs, p) := pyread src pos 4
  (if bs.length = 4 then some (leNat bs) else none, p)

/-- `read_ushort` (main.py line 13): 2 bytes little-endian unsigned. -/
def read_ushort (src : List Nat) (pos : Nat) : Option Nat × Nat :=
  let (bs, p) := pyread src pos 2
  (if bs.length = 2 then some (leNat bs) else none, p)

/-- `read_byte` (main.py line 17): 1 byte. -/
def read_byte (src : List Nat) (pos : Nat) : Option Nat × Nat :=
  let (bs, p) := pyread src pos 1
  (if bs.length = 1 then some (leNat bs) else none, p)

/-- `read_bool` (main.py line 25): 1 byte, `bool(...)` of it. -/
def read_bool (src : List Nat) (pos : Nat) : Option Bool × Nat :=
  let (bs, p) := pyread src pos 1
  (if bs.length = 1 then some (leNat bs ≠ 0) else none, p)

/-- `read_short` (main.py line 21): 2 bytes little-endian, two's
complement signed. -/
def read_short (src : List Nat) (pos : Nat) : Option Int × Nat :=
  let (bs, p) := pyread src pos 2
  (if bs.length = 2 then
     some (if leNat bs < 32768 then (leNat bs : Int) else (leNat bs : Int) - 65536)
   else none, p)

/-- `bytes.decode('utf-16-le')` at the code-unit level: pairs of bytes
combine little-endian into 16-bit units; an odd byte count is a decode
failure (Python raises `UnicodeDecodeError`). -/
def decode_utf16le : List Nat → Option (List Nat)
  | [] => some []
  | [_] => none
  | b0 :: b1 :: rest => (decode_utf16le rest).map (fun us => (b0 + 256 * b1) :: us)

/-- `read_string` (main.py lines 33-65).  Returns the decoded string, the
new cursor, and whether the non-null-terminator warning was printed.
A `struct.error` while reading the length is caught inside the function
(returning the empty string); a `UnicodeDecodeError` falls back to the
`latin-1` decode, i.e. each byte becomes one code unit. -/
def read_string (src : List Nat) (pos : Nat) : PyStr × Nat × Bool :=
  match read_ulong src pos with
  | (none, p) => ([], p, false)
  | (some n, p) =>
    if n = 0 then ([], p, false)
    else
      let (sbytes, p1) := pyread src p (n * 2)
      let (term, p2) := pyread src p1 2
      let warned := term ≠ [0, 0]
      match decode_utf16le sbytes with
      | some us => (us, p2, warned)
      | none => (sbytes, p2, warned)

/-- Exceptions that can escape a read on the binary path:
`structErr` models `struct.error` (truncated fixed-width read), `keyErr`
models the `KeyError` raised by the atlas dictionary lookup, `badSig`
models the invalid-signature early return. -/
inductive DErr where
  | structErr : DErr
  | keyErr : String → DErr
  | badSig : Nat → DErr
deriving DecidableEq

/-- Throwing variant of `read_ulong`. -/
def read_ulongE (src : List Nat) (pos : Nat) : Except DErr (Nat × Nat) :=
  match read_ulong src pos with
  | (some v, p) => .ok (v, p)
  | (none, _) => .error .structErr

/-- Throwing variant of `read_ushort`. -/
def read_ushortE (src : List Nat) (pos : Nat) : Except DErr (Nat × Nat) :=
  match read_ushort src pos with
  | (some v, p) => .ok (v, p)
  | (none, _) => .error .structErr

/-- Throwing variant of `read_byte`. -/
def read_byteE (src : List Nat) (pos : Nat) : Except DErr (Nat × Nat) :=
  match read_byte src pos with
  | (some v, p) => .ok (v, p)
  | (none, _) => .error .structErr

/-- Throwing variant of `read_bool`. -/
def read_boolE (src : List Nat) (pos : Nat) : Except DErr (Bool × Nat) :=
  match read_bool src pos with
  | (some v, p) => .ok (v, p)
  | (none, _) => .error .structErr

/-- Throwing variant of `read_short`. -/
def read_shortE (src : List Nat) (pos : Nat) : Except DErr (Int × Nat) :=
  match read_short src pos with
  | (some v, p) => .ok (v, p)
  | (none, _) => .error .structErr

/-- `ACSLOCATOR` (main.py lines 67-74): an (offset, size) pair. -/
structure ACSLOCATOR where
  offset : Nat
  size : Nat
deriving DecidableEq

/-- Reading an `ACSLOCATOR`: two consecutive ULONGs. -/
def read_locator (src : List Nat) (pos : Nat) : Except DErr (ACSLOCATOR × Nat) :=
  match read_ulongE src pos with
  | .error e => .error e
  | .ok (o, p1) =>
    match read_ulongE src p1 with
    | .error e => .error e
    | .ok (s, p2) => .ok (⟨o, s⟩, p2)

/-- Decimal digit characters of `n` (as `"%d"` renders it). -/
def numChars (n : Nat) : List Char := Nat.toDigits 10 n

/-- Zero-pad a digit string to width 4, as `"%04d"` does. -/
def pad4 (s : List Char) : List Char := List.replicate (4 - s.length) '0' ++ s

/-- The atlas key `f"{n:04d}.bmp"` (main.py line 230). -/
def bmpKey (n : Nat) : String := String.mk (pad4 (numChars n) ++ ['.', 'b', 'm', 'p'])

/-- The sound filename `f"{n:04d}.wav"` (main.py line 238). -/
def wavKey (n : Nat) : String := String.mk (pad4 (numChars n) ++ ['.', 'w', 'a', 'v'])

/-- Python `dict` lookup (`d.get(k)` / `d[k]` before raising). -/
def lookupKey {κ α : Type} [DecidableEq κ] : List (κ × α) → κ → Option α
  | [], _ => none
  | (k', v) :: rest, k => if k' = k then some v else lookupKey rest k

/-- Python `dict` assignment `d[k] = v`: replaces in place if the key is
present, otherwise appends (insertion order preserved). -/
def dict_set {κ α : Type} [DecidableEq κ] : List (κ × α) → κ → α → List (κ × α)
  | [], k, v => [(k, v)]
  | (k', v') :: rest, k, v =>
    if k' = k then (k, v) :: rest else (k', v') :: dict_set rest k v

/-- The per-frame record built by `read_acs_animations`
(`frame_info`, main.py lines 218-265). -/
structure Frame where
  images : List (Nat × Nat)
  sound : Option String
  duration : Nat
  exitBranch : Option Int
  branching : Option (List (Nat × Nat))
deriving DecidableEq

/-- The decoded model: animation name (code units) to frame list, with
Python `dict` semantics. -/
abbrev Model := List (PyStr × List Frame)

/-- The atlas table `sprite_coordinates`: filename to position. -/
abbrev Atlas := List (String × (Nat × Nat))

/-- `skip_datablock` (main.py lines 76-79): read a ULONG size, then
`f.seek(size, 1)` relative (which may move past end of source). -/
def skip_datablock (src : List Nat) (pos : Nat) : Except DErr Nat :=
  match read_ulongE src pos with
  | .error e => .error e
  | .ok (sz, p1) => .ok (p1 + sz)

/-- Loop body of `skip_acsoverlayinfo_list` (main.py lines 94-108):
each entry reads byte, bool, ushort, byte, bool, short, short, ushort,
ushort (14 bytes), then conditionally skips a DATABLOCK. -/
def skip_overlays (src : List Nat) : Nat → Nat → Except DErr Nat
  | 0, pos => .ok pos
  | k + 1, pos =>
    match read_byteE src pos with
    | .error e => .error e
    | .ok (_, p1) =>
    match read_boolE src p1 with
    | .error e => .error e
    | .ok (_, p2) =>
    match read_ushortE src p2 with
    | .error e => .error e
    | .ok (_, p3) =>
    match read_byteE src p3 with
    | .error e => .error e
    | .ok (_, p4) =>
    match read_boolE src p4 with
    | .error e => .error e
    | .ok (region_is_present, p5) =>
    match read_shortE src p5 with
    | .error e => .error e
    | .ok (_, p6) =>
    match read_shortE src p6 with
    | .error e => .error e
    | .ok (_, p7) =>
    match read_ushortE src p7 with
    | .error e => .error e
    | .ok (_, p8) =>
    match read_ushortE src p8 with
    | .error e => .error e
    | .ok (_, p9) =>
    match (if region_is_present then skip_datablock src p9 else .ok p9) with
    | .error e => .error e
    | .ok p10 => skip_overlays src k p10

/-- `skip_acsoverlayinfo_list` (main.py lines 88-108): BYTE count, then
that many overlay entries. -/
def skip_acsoverlayinfo_list (src : List Nat) (pos : Nat) : Except DErr Nat :=
  match read_byteE src pos with
  | .error e => .error e
  | .ok (overlay_count, p1) => skip_overlays src overlay_count p1

/-- Loop of the ACSFRAMEIMAGE LIST (main.py lines 225-231): each entry is
a ULONG image index and two SHORT offsets; the index is then looked up in
the atlas as `sprite_coordinates[f"{image_index:04d}.bmp"]`, raising a
`KeyError` when absent. -/
def read_frame_images (src : List Nat) (atlas : Atlas) :
    Nat → Nat → Except DErr (List (Nat × Nat) × Nat)
  | 0, pos => .ok ([], pos)
  | k + 1, pos =>
    match read_ulongE src pos with
    | .error e => .error e
    | .ok (image_index, p1) =>
    match read_shortE src p1 with
    | .error e => .error e
    | .ok (_, p2) =>
    match read_shortE src p2 with
    | .error e => .error e
    | .ok (_, p3) =>
    match lookupKey atlas (bmpKey image_index) with
    | none => .error (.keyErr (bmpKey image_index))
    | some c =>
      match read_frame_images src atlas k p3 with
      | .error e => .error e
      | .ok (rest, p4) => .ok (c :: rest, p4)

/-- BRANCHINFO LIST loop (main.py lines 251-254): each entry is a USHORT
frame index and a USHORT probability, collected as
`{"frameIndex": _, "weight": _}`. -/
def read_branches (src : List Nat) : Nat → Nat → Except DErr (List (Nat × Nat) × Nat)
  | 0, pos => .ok ([], pos)
  | k + 1, pos =>
    match read_ushortE src pos with
    | .error e => .error e
    | .ok (fi, p1) =>
    match read_ushortE src p1 with
    | .error e => .error e
    | .ok (w, p2) =>
      match read_branches src k p2 with
      | .error e => .error e
      | .ok (rest, p3) => .ok ((fi, w) :: rest, p3)

/-- Body of the frame loop (main.py lines 218-269): image list, audio
index, duration, exit index, branch list, overlay skip.  The sound is
kept only when `audio_index < audio_count`; the duration is stored as
`value * 10`; the exit index is kept only when
`exit_frame_index and exit_frame_index >= 0` (Python truthiness: zero is
falsy); the branch list is kept only when non-empty. -/
def read_frame (src : List Nat) (atlas : Atlas) (audio_count : Nat) (pos : Nat) :
    Except DErr (Frame × Nat) :=
  match read_ushortE src pos with
  | .error e => .error e
  | .ok (frame_image_count, p1) =>
  match read_frame_images src atlas frame_image_count p1 with
  | .error e => .error e
  | .ok (frame_images, p2) =>
  match read_ushortE src p2 with
  | .error e => .error e
  | .ok (audio_index, p3) =>
  match read_ushortE src p3 with
  | .error e => .error e
  | .ok (frame_duration, p4) =>
  match read_shortE src p4 with
  | .error e => .error e
  | .ok (exit_frame_index, p5) =>
  match read_byteE src p5 with
  | .error e => .error e
  | .ok (branch_count, p6) =>
  match read_branches src branch_count p6 with
  | .error e => .error e
  | .ok (branches, p7) =>
  match skip_acsoverlayinfo_list src p7 with
  | .error e => .error e
  | .ok p8 =>
    .ok ({ images := frame_images,
           sound := if audio_index < audio_count then some (wavKey audio_index) else none,
           duration := frame_duration * 10,
           exitBranch :=
             if exit_frame_index ≠ 0 ∧ 0 ≤ exit_frame_index
             then some exit_frame_index else none,
           branching := if branches ≠ [] then some branches else none }, p8)

/-- ACSFRAMEINFO LIST loop (main.py lines 217-269). -/
def read_frames (src : List Nat) (atlas : Atlas) (audio_count : Nat) :
    Nat → Nat → Except DErr (List Frame × Nat)
  | 0, pos => .ok ([], pos)
  | n + 1, pos =>
    match read_frame src atlas audio_count pos with
    | .error e => .error e
    | .ok (fr, p1) =>
      match read_frames src atlas audio_count n p1 with
      | .error e => .error e
      | .ok (frs, p2) => .ok (fr :: frs, p2)

/-- The image/audio count probe (main.py lines 155-165): when the
locator's size is positive, seek to its offset and read a ULONG count;
otherwise the count is 0 and the cursor is untouched. -/
def get_list_count (src : List Nat) (loc : ACSLOCATOR) (pos : Nat) :
    Except DErr (Nat × Nat) :=
  if loc.size > 0 then
    match read_ulongE src loc.offset with
    | .error e => .error e
    | .ok (c, p) => .ok (c, p)
  else .ok (0, pos)

/-- Body of the animation-directory loop (main.py lines 182-277): read
the list-entry name string and the info locator, remember the resume
position, and if the locator's size is positive seek to it, read the
canonical (uppercase) name, the transition byte, the return-animation
name and the frame list, and record the animation under the canonical
name only when that name is non-empty.  The cursor is restored to the
resume position in every non-throwing case. -/
def process_entry (src : List Nat) (atlas : Atlas) (audio_count : Nat)
    (model : Model) (pos : Nat) : Except DErr (Model × Nat) :=
  let (_, p1, _) := read_string src pos
  match read_locator src p1 with
  | .error e => .error e
  | .ok (animation_info_locator, return_to_pos) =>
    if animation_info_locator.size > 0 then
      let (animation_name_uppercase, p3, _) := read_string src animation_info_locator.offset
      match read_byteE src p3 with
      | .error e => .error e
      | .ok (_, p4) =>
        let (_, p5, _) := read_string src p4
        match read_ushortE src p5 with
        | .error e => .error e
        | .ok (frame_count, p6) =>
          match read_frames src atlas audio_count frame_count p6 with
          | .error e => .error e
          | .ok (animation_frames_data, _) =>
            .ok ((if animation_name_uppercase ≠ []
                  then dict_set model animation_name_uppercase animation_frames_data
                  else model),
                 return_to_pos)
    else
      .ok (model, return_to_pos)

/-- The animation-directory loop (main.py lines 181-277).  A raised
exception carries the model accumulated so far, since the top-level
handler returns exactly that accumulated dictionary. -/
def read_directory (src : List Nat) (atlas : Atlas) (audio_count : Nat) :
    Nat → Model → Nat → Except (DErr × Model) (Model × Nat)
  | 0, model, pos => .ok (model, pos)
  | n + 1, model, pos =>
    match process_entry src atlas audio_count model pos with
    | .error e => .error (e, model)
    | .ok (m1, p1) => read_directory src atlas audio_count n m1 p1

/-- The body of the `try` block of `read_acs_animations`
(main.py lines 128-277): signature check, the four header locators, the
image/audio count probes, then the animation directory walk.  Errors
carry the partially built model that the top-level handler returns. -/
def decode_acs (src : List Nat) (atlas : Atlas) : Except (DErr × Model) Model :=
  match read_ulongE src 0 with
  | .error e => .error (e, [])
  | .ok (signature, p1) =>
  if signature = 0xABCDABC3 then
    match read_locator src p1 with
    | .error e => .error (e, [])
    | .ok (_, p2) =>
    match read_locator src p2 with
    | .error e => .error (e, [])
    | .ok (animation_list_locator, p3) =>
    match read_locator src p3 with
    | .error e => .error (e, [])
    | .ok (image_list_locator, p4) =>
    match read_locator src p4 with
    | .error e => .error (e, [])
    | .ok (audio_list_locator, p5) =>
    match get_list_count src image_list_locator p5 with
    | .error e => .error (e, [])
    | .ok (_, p6) =>
    match get_list_count src audio_list_locator p6 with
    | .error e => .error (e, [])
    | .ok (audio_count, _) =>
    if animation_list_locator.size = 0 then .ok []
    else
      match read_ulongE src animation_list_locator.offset with
      | .error e => .error (e, [])
      | .ok (animation_count, p8) =>
        match read_directory src atlas audio_count animation_count [] p8 with
        | .error em => .error em
        | .ok (m, _) => .ok m
  else .error (.badSig signature, [])

/-- `read_acs_animations` (main.py lines 113-286).  The function always
returns the accumulated dictionary; the second component models the
fatal diagnostic printed by the `except` handlers (or by the signature
check), `none` when the decode ran to completion. -/
def read_acs_animations (src : List Nat) (atlas : Atlas) : Model × Option DErr :=
  match decode_acs src atlas with
  | .ok m => (m, none)
  | .error (e, m) => (m, some e)

end Acs

namespace Acd

/-- Python `str.startswith`, over character lists. -/
def chStarts : List Char → List Char → Bool
  | [], _ => true
  | _ :: _, [] => false
  | p :: ps, c :: cs => p = c && chStarts ps cs

/-- Characters stripped by Python `str.strip()`. -/
def isPySpace (c : Char) : Bool :=
  c = ' ' || c = '\t' || c = '\n' || c = '\r' || c = Char.ofNat 12 || c = Char.ofNat 11

/-- Python `str.strip()` over character lists. -/
def chStrip (s : List Char) : List Char :=
  ((s.dropWhile isPySpace).reverse.dropWhile isPySpace).reverse

/-- Python `str.strip(ch)` for a single character, over character
lists. -/
def chStripChar (ch : Char) (s : List Char) : List Char :=
  ((s.dropWhile (· = ch)).reverse.dropWhile (· = ch)).reverse

/-- Python `str.split(sep)` for a one-character separator: all segments,
empty ones included. -/
def splitChar (sep : Char) : List Char → List (List Char)
  | [] => [[]]
  | c :: cs =>
    if c = sep then [] :: splitChar sep cs
    else
      match splitChar sep cs with
      | [] => [[c]]
      | g :: gs => (c :: g) :: gs

/-- Value of a decimal digit character, `none` otherwise. -/
def digitVal (c : Char) : Option Nat :=
  if '0' ≤ c ∧ c ≤ '9' then some (c.toNat - 48) else none

/-- Decimal digit-string parse (non-empty, digits only). -/
def parseNatDigits (ds : List Char) : Option Nat :=
  if ds = [] then none
  else ds.foldl
    (fun acc c =>
      match acc, digitVal c with
      | some a, some d => some (10 * a + d)
      | _, _ => none)
    (some 0)

/-- Python `int(s)` on an already-stripped string: optional sign then
decimal digits; `none` models a raised `ValueError`. -/
def parseInt (s : List Char) : Option Int :=
  match s with
  | '-' :: ds => (parseNatDigits ds).map (fun n => -(n : Int))
  | '+' :: ds => (parseNatDigits ds).map (fun n => (n : Int))
  | ds => (parseNatDigits ds).map (fun n => (n : Int))

/-- Python `str.replace(pat, rep)` (non-overlapping, left to right) over
character lists, for a non-empty pattern. -/
def replaceAll (pat rep : List Char) : List Char → List Char
  | [] => []
  | c :: cs =>
    if pat ≠ [] ∧ chStarts pat (c :: cs) = true then
      rep ++ replaceAll pat rep (cs.drop (pat.length - 1))
    else
      c :: replaceAll pat rep cs
termination_by s => s.length
decreasing_by
  · simp only [List.length_drop, List.length_cons]; omega
  · simp only [List.length_cons]; omega

/-- `sound_path.replace('\\', '/')` (main2.py line 62). -/
def normSlashes (s : List Char) : List Char :=
  s.map (fun c => if c = Char.ofNat 92 then '/' else c)

/-- `os.path.basename` (POSIX): everything after the last `/`. -/
def pyBasename (s : List Char) : List Char :=
  (s.reverse.takeWhile (fun c => c ≠ '/')).reverse

/-- One branch entry accumulated by the `.acd` parser
(`{'frameIndex': ...}` possibly later given a `'weight'`). -/
structure AcdBranch where
  frameIndex : Int
  weight : Option Int
deriving DecidableEq

/-- The `frame_data` dictionary of `read_acd_animations`: each key is
present (`some`) or absent (`none`). -/
structure AcdFrameData where
  duration : Option Int
  sound : Option String
  exitBranch : Option Int
  branching : Option (List AcdBranch)
  images : Option (List (Nat × Nat))
deriving DecidableEq

/-- A fresh `frame_data = {}`. -/
def emptyFrameData : AcdFrameData :=
  { duration := none, sound := none, exitBranch := none, branching := none, images := none }

/-- Mutable state of the `read_acd_animations` loop
(main2.py lines 18-23). -/
structure AcdState where
  animations : List (String × List AcdFrameData)
  current_animation : Option String
  current_frames : List AcdFrameData
  in_animation : Bool
  in_frame : Bool
  frame_data : AcdFrameData
deriving DecidableEq

/-- The initial parser state. -/
def initAcdState : AcdState :=
  { animations := [], current_animation := none, current_frames := [],
    in_animation := false, in_frame := false, frame_data := emptyFrameData }

/-- `frame_data['branching'][-1]['weight'] = prob` (main2.py line 82). -/
def setLastWeight : List AcdBranch → Int → List AcdBranch
  | [], _ => []
  | [b], v => [{ b with weight := some v }]
  | b :: rest, v => b :: setLastWeight rest v

/-- The double quote character. -/
def qc : Char := Char.ofNat 34

/-- One iteration of the `.acd` line loop (main2.py lines 26-97) on an
(unstripped) input line.  `Except Unit` models an uncaught exception
(`IndexError` from a missing split field, or `ValueError` from the
un-guarded `int()` in the `Duration` branch), which aborts the whole
parse. -/
def process_line (atlas : Acs.Atlas) (st : AcdState) (line : List Char) :
    Except Unit AcdState :=
  let l := chStrip line
  if l = [] || chStarts ['/', '/'] l then .ok st
  else if chStarts "DefineAnimation".data l then
    match (splitChar qc l).get? 1 with
    | none => .error ()
    | some nm =>
      .ok { st with in_animation := true,
                    current_animation := some (String.mk nm),
                    current_frames := [] }
  else if l = "EndAnimation".data then
    let anims :=
      match st.current_animation with
      | some nm =>
        if nm ≠ "" ∧ st.current_frames ≠ []
        then Acs.dict_set st.animations nm st.current_frames
        else st.animations
      | none => st.animations
    .ok { st with animations := anims, in_animation := false,
                  current_animation := none, current_frames := [] }
  else if st.in_animation && chStarts "DefineFrame".data l then
    .ok { st with in_frame := true, frame_data := emptyFrameData }
  else if st.in_animation && l = "EndFrame".data then
    let fd := st.frame_data
    let fd := { fd with images := some (fd.images.getD []) }
    .ok { st with in_frame := false,
                  current_frames := st.current_frames ++ [fd],
                  frame_data := emptyFrameData }
  else if st.in_animation && st.in_frame then
    if chStarts "Duration =".data l then
      match (splitChar '=' l).get? 1 with
      | none => .error ()
      | some raw =>
        match parseInt (chStrip raw) with
        | none => .error ()
        | some v =>
          .ok { st with frame_data := { st.frame_data with duration := some (v * 10) } }
    else if chStarts "SoundEffect =".data l then
      match (splitChar '=' l).get? 1 with
      | none => .error ()
      | some raw =>
        let sound_path := chStripChar qc (chStrip raw)
        let nm := pyBasename (normSlashes sound_path)
        .ok { st with frame_data := { st.frame_data with sound := some (String.mk nm) } }
    else if chStarts "ExitBranch =".data l then
      match (splitChar '=' l).get? 1 with
      | none => .error ()
      | some raw =>
        match parseInt (chStrip raw) with
        | none => .ok st
        | some v =>
          .ok { st with frame_data := { st.frame_data with exitBranch := some (v - 1) } }
    else if chStarts "DefineBranching".data l then
      .ok { st with frame_data := { st.frame_data with branching := some [] } }
    else if chStarts "BranchTo =".data l then
      match (splitChar '=' l).get? 1 with
      | none => .error ()
      | some raw =>
        match parseInt (chStrip raw) with
        | none => .ok st
        | some v =>
          .ok { st with frame_data :=
                  { st.frame_data with
                    branching := some (st.frame_data.branching.getD []
                                        ++ [{ frameIndex := v - 1, weight := none }]) } }
    else if chStarts "Probability =".data l then
      match (splitChar '=' l).get? 1 with
      | none => .error ()
      | some raw =>
        match parseInt (chStrip raw) with
        | none => .ok st
        | some v =>
          match st.frame_data.branching with
          | some (b :: bs) =>
            .ok { st with frame_data :=
                    { st.frame_data with branching := some (setLastWeight (b :: bs) v) } }
          | _ => .ok st
    else if chStarts "Filename =".data l then
      match (splitChar '=' l).get? 1 with
      | none => .error ()
      | some raw =>
        let filename := chStripChar qc (chStrip raw)
        let key := pyBasename filename
        let coord :=
          match Acs.lookupKey atlas (String.mk key) with
          | some c => some c
          | none =>
            let alt_key := replaceAll "Images/".data []
              (replaceAll ('I' :: 'm' :: 'a' :: 'g' :: 'e' :: 's' :: [Char.ofNat 92]) [] key)
            Acs.lookupKey atlas (String.mk alt_key)
        match coord with
        | some c =>
          .ok { st with frame_data := { st.frame_data with images := some [c] } }
        | none =>
          .ok { st with frame_data := { st.frame_data with images := some [(0, 0)] } }
    else .ok st
  else .ok st

/-- The line fold of `read_acd_animations` (main2.py lines 26-103): an
uncaught exception makes the function return the `animations` dictionary
accumulated so far (the outer `except` handler). -/
def run_lines (atlas : Acs.Atlas) : AcdState → List (List Char) →
    List (String × List AcdFrameData)
  | st, [] => st.animations
  | st, l :: ls =>
    match process_line atlas st l with
    | .error _ => st.animations
    | .ok st1 => run_lines atlas st1 ls

/-- `read_acd_animations` (main2.py lines 7-103), with the file already
split into lines. -/
def read_acd_animations (lines : List (List Char)) (atlas : Acs.Atlas) :
    List (String × List AcdFrameData) :=
  run_lines atlas initAcdState lines

end Acd

namespace Spec

open Acs

/-- Little-endian encoding of a 16-bit value (`struct.pack('<H', v)`). -/
def encU16 (v : Nat) : List Nat := [v % 256, v / 256 % 256]

/-- Little-endian encoding of a 32-bit value (`struct.pack('<I', v)`). -/
def encU32 (v : Nat) : List Nat :=
  [v % 256, v / 256 % 256, v / 65536 % 256, v / 16777216 % 256]

/-- Two's-complement little-endian encoding of a 16-bit signed value
(`struct.pack('<h', x)`). -/
def encI16 (x : Int) : List Nat := encU16 (x % 65536).toNat

/-- UTF-16-LE encoding of a list of 16-bit code units. -/
def encUnits : List Nat → List Nat
  | [] => []
  | u :: us => u % 256 :: u / 256 % 256 :: encUnits us

/-- Modelled from the spec: the STRING encoding read by `read_string` —
a 4-byte character count, the UTF-16-LE code units, and a 0x0000
terminator; a zero count carries no character data and no terminator
(per the documentation quoted in `read_string`'s docstring). -/
def encode_string (s : PyStr) : List Nat :=
  if s = [] then encU32 0 else encU32 s.length ++ encUnits s ++ [0, 0]

/-- A single binary frame with no image references, audio index `a`,
duration `d`, exit index `x`, no branches and no overlays. -/
def frameBytes (a d : Nat) (x : Int) : List Nat :=
  encU16 0 ++ encU16 a ++ encU16 d ++ encI16 x ++ [0, 0]

/-- The 15-byte animation-information block used inside `c1src`
(canonical name `"A"`, transition 7, empty return name, zero frames),
padded to 16 bytes. -/
def c1info : List Nat :=
  encU32 1 ++ [65, 0] ++ [0, 0] ++ [7] ++ encU32 0 ++ encU16 0 ++ [0]

/-- A container whose directory announces two animations but ends right
after the first entry: entry one is complete (its info block lives inside
the bytes of its own name string, at offset 44) and decodes to animation
`"A"`; entry two's reads run past the end of the source. -/
def c1src : List Nat :=
  encU32 0xABCDABC3 ++
  encU32 0 ++ encU32 0 ++          -- character info locator
  encU32 36 ++ encU32 1 ++         -- animation list locator
  encU32 0 ++ encU32 0 ++          -- image list locator
  encU32 0 ++ encU32 0 ++          -- audio list locator
  encU32 2 ++                      -- animation count
  encU32 8 ++ c1info ++ [0, 0] ++  -- entry 1 name string (16 content bytes)
  encU32 44 ++ encU32 1            -- entry 1 info locator -> offset 44

/-- A well-formed container with one animation `"A"` holding one frame
with one image reference, index 5 — which is then missing from the
(empty) atlas. -/
def c3src : List Nat :=
  encU32 0xABCDABC3 ++
  encU32 0 ++ encU32 0 ++          -- character info locator
  encU32 36 ++ encU32 1 ++         -- animation list locator
  encU32 0 ++ encU32 0 ++          -- image list locator
  encU32 0 ++ encU32 0 ++          -- audio list locator
  encU32 1 ++                      -- animation count
  encU32 0 ++                      -- entry 1 name: empty string
  encU32 52 ++ encU32 1 ++         -- entry 1 info locator -> offset 52
  encU32 1 ++ [65, 0] ++ [0, 0] ++ -- canonical name "A"
  [0] ++                           -- transition type
  encU32 0 ++                      -- return-animation name: empty
  encU16 1 ++                      -- frame count 1
  encU16 1 ++                      -- frame image count 1
  encU32 5 ++ encI16 0 ++ encI16 0 -- image index 5, offsets

/-- An overlay list with count 1 whose entry is fourteen zero bytes
(region-present flag clear). -/
def c4src : List Nat := 1 :: List.replicate 14 0

/-- A code unit that UTF-16 encodes on its own: any 16-bit value outside
the surrogate range.  (Python's `utf-16-le` codec rejects lone
surrogates; restricting to such units keeps the code-unit-level model in
exact agreement with Python.) -/
abbrev GoodUnit (u : Nat) : Prop := u < 55296 ∨ (57344 ≤ u ∧ u < 65536)

end Spec

namespace Pf

open Acs Spec

theorem drop_of_append {src m tail : List Nat} {pos : Nat}
    (h : src.drop pos = m ++ tail) : src.drop (pos + m.length) = tail := by
  rw [← List.drop_drop, h, List.drop_left]

theorem pos_lt_of_drop {src m tail : List Nat} {pos : Nat}
    (h : src.drop pos = m ++ tail) (hm : m ≠ []) : pos < src.length := by
  by_contra hc
  have : src.drop pos = [] := List.drop_eq_nil_iff.mpr (by omega)
  rw [h] at this
  exact hm (List.append_eq_nil.mp this).1

theorem len_add_le_of_drop {src m tail : List Nat} {pos : Nat}
    (h : src.drop pos = m ++ tail) (hpos : pos ≤ src.length) :
    pos + m.length ≤ src.length := by
  have hl := congrArg List.length h
  rw [List.length_drop, List.length_append] at hl
  omega

theorem pyread_drop {src m tail : List Nat} {pos : Nat}
    (h : src.drop pos = m ++ tail) : pyread src pos m.length = (m, pos + m.length) := by
  rcases m with _ | ⟨b, bs⟩
  · simp only [pyread, List.length_nil, List.take_zero, Nat.add_zero]
    split
    · rw [Nat.min_eq_left (by assumption)]
    · rfl
  · have hlt : pos < src.length := pos_lt_of_drop h (by simp)
    have hle : pos + (b :: bs).length ≤ src.length := len_add_le_of_drop h (by omega)
    simp only [pyread, if_pos (Nat.le_of_lt hlt), h, List.take_left,
      Nat.min_eq_left hle]

theorem length_encU16 (v : Nat) : (encU16 v).length = 2 := rfl

theorem length_encU32 (v : Nat) : (encU32 v).length = 4 := rfl

theorem length_encI16 (x : Int) : (encI16 x).length = 2 := rfl

theorem leNat_encU32 (v : Nat) (h : v < 4294967296) : leNat (encU32 v) = v := by
  simp only [encU32, leNat]
  omega

theorem leNat_encU16 (v : Nat) (h : v < 65536) : leNat (encU16 v) = v := by
  simp only [encU16, leNat]
  omega

theorem read_ulongE_drop {src tail : List Nat} {pos v : Nat}
    (hv : v < 4294967296) (h : src.drop pos = encU32 v ++ tail) :
    read_ulongE src pos = .ok (v, pos + 4) := by
  have hp := pyread_drop h
  rw [length_encU32] at hp
  simp only [read_ulongE, read_ulong, hp, length_encU32, if_pos rfl,
    leNat_encU32 v hv]
  simp

theorem read_ushortE_drop {src tail : List Nat} {pos v : Nat}
    (hv : v < 65536) (h : src.drop pos = encU16 v ++ tail) :
    read_ushortE src pos = .ok (v, pos + 2) := by
  have hp := pyread_drop h
  rw [length_encU16] at hp
  simp only [read_ushortE, read_ushort, hp, length_encU16, if_pos rfl,
    leNat_encU16 v hv]
  simp

theorem read_ushortE_last {src : List Nat} {pos v : Nat} (hv : v < 65536)
    (h : src.drop pos = encU16 v) : read_ushortE src pos = .ok (v, pos + 2) :=
  read_ushortE_drop hv (show src.drop pos = encU16 v ++ [] by rw [List.append_nil]; exact h)

theorem read_byteE_drop {src tail : List Nat} {pos b : Nat}
    (h : src.drop pos = b :: tail) :
    read_byteE src pos = .ok (b, pos + 1) := by
  have hp : pyread src pos ([b].length) = ([b], pos + [b].length) :=
    pyread_drop (by simpa using h)
  simp only [List.length_cons, List.length_nil] at hp
  simp only [read_byteE, read_byte, hp, List.length_cons, List.length_nil, if_pos rfl,
    leNat, Nat.mul_zero, Nat.add_zero]
  simp

theorem read_boolE_drop {src tail : List Nat} {pos b : Nat}
    (h : src.drop pos = b :: tail) :
    read_boolE src pos = .ok (decide (b ≠ 0), pos + 1) := by
  have hp : pyread src pos ([b].length) = ([b], pos + [b].length) :=
    pyread_drop (by simpa using h)
  simp only [List.length_cons, List.length_nil] at hp
  simp only [read_boolE, read_bool, hp, List.length_cons, List.length_nil, if_pos rfl,
    leNat, Nat.mul_zero, Nat.add_zero]
  simp

theorem read_shortE_drop {src tail : List Nat} {pos : Nat} {x : Int}
    (hlo : -32768 ≤ x) (hhi : x < 32768) (h : src.drop pos = encI16 x ++ tail) :
    read_shortE src pos = .ok (x, pos + 2) := by
  have hp := pyread_drop h
  rw [length_encI16] at hp
  have hm : (x % 65536).toNat < 65536 := by omega
  simp only [encI16] at hp
  simp only [read_shortE, read_short, hp, length_encU16, if_pos rfl,
    leNat_encU16 _ hm]
  simp only [if_true]
  have hx : (if (x % 65536).toNat < 32768 then ((x % 65536).toNat : Int)
             else ((x % 65536).toNat : Int) - 65536) = x := by omega
  rw [hx]

theorem length_encUnits (s : PyStr) : (encUnits s).length = 2 * s.length := by
  induction s with
  | nil => rfl
  | cons u us ih => simp only [encUnits, List.length_cons, ih]; omega

theorem decode_encUnits (s : PyStr) (h : ∀ u ∈ s, u < 65536) :
    decode_utf16le (encUnits s) = some s := by
  induction s with
  | nil => rfl
  | cons u us ih =>
    have hu : u < 65536 := h u (by simp)
    have hrest := ih (fun v hv => h v (by simp [hv]))
    simp only [encUnits, decode_utf16le, hrest]
    have : u % 256 + 256 * (u / 256 % 256) = u := by omega
    rw [this]
    rfl

theorem read_string_drop {src tail : List Nat} {pos : Nat} {s : PyStr}
    (hu : ∀ u ∈ s, u < 65536) (hn : s.length < 4294967296)
    (h : src.drop pos = encode_string s ++ tail) :
    read_string src pos = (s, pos + (encode_string s).length, false) := by
  rcases eq_or_ne s [] with hs | hs
  · subst hs
    have h' : src.drop pos = encU32 0 ++ tail := by simpa [encode_string] using h
    have hc := pyread_drop h'
    rw [length_encU32] at hc
    have hr : read_ulong src pos = (some 0, pos + 4) := by
      simp only [read_ulong, hc, length_encU32, leNat_encU32 0 (by norm_num)]
      simp
    simp [read_string, hr, encode_string, length_encU32]
  · simp only [encode_string, if_neg hs, List.append_assoc] at h
    have hc : read_ulong src pos = (some s.length, pos + 4) := by
      have hp := pyread_drop h
      rw [length_encU32] at hp
      simp only [read_ulong, hp, length_encU32, leNat_encU32 _ hn]
      simp
    have h1 : src.drop (pos + 4) = encUnits s ++ ([0, 0] ++ tail) := by
      have := drop_of_append h
      rwa [length_encU32] at this
    have h2 : pyread src (pos + 4) (s.length * 2) = (encUnits s, pos + 4 + 2 * s.length) := by
      have hp := pyread_drop h1
      rw [length_encUnits] at hp
      rwa [Nat.mul_comm s.length 2]
    have h3 : src.drop (pos + 4 + 2 * s.length) = [0, 0] ++ tail := by
      have := drop_of_append h1
      rwa [length_encUnits] at this
    have h4 : pyread src (pos + 4 + 2 * s.length) 2 = ([0, 0], pos + 4 + 2 * s.length + 2) := by
      have hp := pyread_drop h3
      simpa using hp
    have hlen : s.length ≠ 0 := fun hz => hs (List.eq_nil_of_length_eq_zero hz)
    simp only [read_string, hc, if_neg hlen, h2, h4, decode_encUnits s hu,
      encode_string, if_neg hs]
    simp only [List.length_append, length_encU32, length_encUnits,
      List.length_cons, List.length_nil, Prod.mk.injEq]
    refine ⟨trivial, by omega, by simp⟩

theorem read_string_badterm {src tail : List Nat} {pos t1 t2 : Nat} {s : PyStr}
    (hu : ∀ u ∈ s, u < 65536) (hn : s.length < 4294967296) (hs : s ≠ [])
    (hterm : ¬(t1 = 0 ∧ t2 = 0))
    (h : src.drop pos = encU32 s.length ++ encUnits s ++ [t1, t2] ++ tail) :
    read_string src pos = (s, pos + 4 + 2 * s.length + 2, true) := by
  simp only [List.append_assoc] at h
  have hc : read_ulong src pos = (some s.length, pos + 4) := by
    have hp := pyread_drop h
    rw [length_encU32] at hp
    simp only [read_ulong, hp, length_encU32, leNat_encU32 _ hn]
    simp
  have h1 : src.drop (pos + 4) = encUnits s ++ ([t1, t2] ++ tail) := by
    have := drop_of_append h
    rwa [length_encU32] at this
  have h2 : pyread src (pos + 4) (s.length * 2) = (encUnits s, pos + 4 + 2 * s.length) := by
    have hp := pyread_drop h1
    rw [length_encUnits] at hp
    rwa [Nat.mul_comm s.length 2]
  have h3 : src.drop (pos + 4 + 2 * s.length) = [t1, t2] ++ tail := by
    have := drop_of_append h1
    rwa [length_encUnits] at this
  have h4 : pyread src (pos + 4 + 2 * s.length) 2 = ([t1, t2], pos + 4 + 2 * s.length + 2) := by
    have hp := pyread_drop h3
    simpa using hp
  have hlen : s.length ≠ 0 := fun hz => hs (List.eq_nil_of_length_eq_zero hz)
  simp only [read_string, hc, if_neg hlen, h2, h4, decode_encUnits s hu,
    Prod.mk.injEq]
  refine ⟨trivial, trivial, ?_⟩
  simp only [ne_eq, List.cons.injEq, and_true, decide_eq_true_eq]
  tauto

theorem drop_one {src tail : List Nat} {pos b : Nat}
    (h : src.drop pos = b :: tail) : src.drop (pos + 1) = tail := by
  have h' : src.drop pos = [b] ++ tail := by simpa using h
  have := drop_of_append h'
  simpa using this

theorem read_ushortE_raw {src tail : List Nat} {pos b1 b2 : Nat}
    (h : src.drop pos = b1 :: b2 :: tail) :
    ∃ v, read_ushortE src pos = .ok (v, pos + 2) := by
  have hp : pyread src pos ([b1, b2].length) = ([b1, b2], pos + [b1, b2].length) :=
    pyread_drop (by simpa using h)
  simp only [List.length_cons, List.length_nil] at hp
  refine ⟨leNat [b1, b2], ?_⟩
  simp only [read_ushortE, read_ushort, hp]
  simp

theorem read_shortE_raw {src tail : List Nat} {pos b1 b2 : Nat}
    (h : src.drop pos = b1 :: b2 :: tail) :
    ∃ v, read_shortE src pos = .ok (v, pos + 2) := by
  have hp : pyread src pos ([b1, b2].length) = ([b1, b2], pos + [b1, b2].length) :=
    pyread_drop (by simpa using h)
  simp only [List.length_cons, List.length_nil] at hp
  refine ⟨if leNat [b1, b2] < 32768 then (leNat [b1, b2] : Int)
          else (leNat [b1, b2] : Int) - 65536, ?_⟩
  simp only [read_shortE, read_short, hp]
  simp

theorem read_ulongE_raw {src tail : List Nat} {pos b1 b2 b3 b4 : Nat}
    (h : src.drop pos = b1 :: b2 :: b3 :: b4 :: tail) :
    ∃ v, read_ulongE src pos = .ok (v, pos + 4) := by
  have hp : pyread src pos ([b1, b2, b3, b4].length) = ([b1, b2, b3, b4], pos + 4) :=
    pyread_drop (by simpa using h)
  simp only [List.length_cons, List.length_nil] at hp
  refine ⟨leNat [b1, b2, b3, b4], ?_⟩
  simp only [read_ulongE, read_ulong, hp]
  simp

theorem read_frame_frameBytes (a d : Nat) (x : Int) (ac : Nat) (atlas : Atlas)
    (rest : List Nat) (ha : a < 65536) (hd : d < 65536)
    (hlo : -32768 ≤ x) (hhi : x < 32768) :
    read_frame (frameBytes a d x ++ rest) atlas ac 0 =
      .ok ({ images := [], sound := if a < ac then some (wavKey a) else none,
             duration := d * 10,
             exitBranch := if 0 < x then some x else none,
             branching := none }, 10) := by
  have h0 : (frameBytes a d x ++ rest).drop 0 =
      encU16 0 ++ (encU16 a ++ (encU16 d ++ (encI16 x ++ (0 :: 0 :: rest)))) := by
    simp [frameBytes]
  have r1 := read_ushortE_drop (by norm_num) h0
  have h1 := drop_of_append h0
  rw [length_encU16] at h1
  norm_num at h1 r1
  have r2 := read_ushortE_drop ha h1
  have h2 := drop_of_append h1
  rw [length_encU16] at h2
  norm_num at h2 r2
  have r3 := read_ushortE_drop hd h2
  have h3 := drop_of_append h2
  rw [length_encU16] at h3
  norm_num at h3 r3
  have r4 := read_shortE_drop hlo hhi h3
  have h4 := drop_of_append h3
  rw [length_encI16] at h4
  norm_num at h4 r4
  have r5 := read_byteE_drop h4
  have h5 := drop_one h4
  norm_num at h5 r5
  have r6 := read_byteE_drop h5
  norm_num at r6
  simp only [read_frame, r1, read_frame_images, r2, r3, r4, r5, read_branches,
    skip_acsoverlayinfo_list, r6, skip_overlays]
  have hexit : (if x ≠ 0 ∧ 0 ≤ x then some x else none) =
      (if 0 < x then some x else none) := by
    split_ifs <;> first | rfl | omega
  rw [hexit]
  simp

theorem skip_overlays_one_clear {src tail : List Nat} {pos : Nat}
    {t rb i1 i2 u x1 x2 y1 y2 w1 w2 g1 g2 : Nat}
    (h : src.drop pos =
      t :: rb :: i1 :: i2 :: u :: 0 :: x1 :: x2 :: y1 :: y2 :: w1 :: w2 :: g1 :: g2 :: tail) :
    skip_overlays src 1 pos = .ok (pos + 14) := by
  have r1 := read_byteE_drop h
  have h1 := drop_one h
  have r2 := read_boolE_drop h1
  norm_num at r2
  have h2 := drop_one h1
  norm_num at h2
  obtain ⟨v3, r3⟩ := read_ushortE_raw h2
  have h3 := drop_one h2
  norm_num at h3
  have h4 := drop_one h3
  norm_num at h4
  have r4 := read_byteE_drop h4
  norm_num at r4
  have h5 := drop_one h4
  norm_num at h5
  have r5 := read_boolE_drop h5
  norm_num at r5
  have h6 := drop_one h5
  norm_num at h6
  obtain ⟨v6, r6⟩ := read_shortE_raw h6
  have h7 := drop_one h6
  norm_num at h7
  have h8 := drop_one h7
  norm_num at h8
  obtain ⟨v8, r8⟩ := read_shortE_raw h8
  have h9 := drop_one h8
  norm_num at h9
  have h10 := drop_one h9
  norm_num at h10
  obtain ⟨v10, r10⟩ := read_ushortE_raw h10
  have h11 := drop_one h10
  norm_num at h11
  have h12 := drop_one h11
  norm_num at h12
  obtain ⟨v12, r12⟩ := read_ushortE_raw h12
  simp only [skip_overlays, r1, r2, r3, r4, r5, r6, r8, r10, r12]
  simp

theorem skip_overlays_one_flag {src tail : List Nat} {pos : Nat}
    {t rb i1 i2 u f x1 x2 y1 y2 w1 w2 g1 g2 L : Nat}
    (hf : f ≠ 0) (hL : L < 4294967296)
    (h : src.drop pos =
      t :: rb :: i1 :: i2 :: u :: f :: x1 :: x2 :: y1 :: y2 :: w1 :: w2 :: g1 :: g2 ::
        (encU32 L ++ tail)) :
    skip_overlays src 1 pos = .ok (pos + 18 + L) := by
  have r1 := read_byteE_drop h
  have h1 := drop_one h
  have r2 := read_boolE_drop h1
  norm_num at r2
  have h2 := drop_one h1
  norm_num at h2
  obtain ⟨v3, r3⟩ := read_ushortE_raw h2
  have h3 := drop_one h2
  norm_num at h3
  have h4 := drop_one h3
  norm_num at h4
  have r4 := read_byteE_drop h4
  norm_num at r4
  have h5 := drop_one h4
  norm_num at h5
  have r5 := read_boolE_drop h5
  norm_num [hf] at r5
  have h6 := drop_one h5
  norm_num at h6
  obtain ⟨v6, r6⟩ := read_shortE_raw h6
  have h7 := drop_one h6
  norm_num at h7
  have h8 := drop_one h7
  norm_num at h8
  obtain ⟨v8, r8⟩ := read_shortE_raw h8
  have h9 := drop_one h8
  norm_num at h9
  have h10 := drop_one h9
  norm_num at h10
  obtain ⟨v10, r10⟩ := read_ushortE_raw h10
  have h11 := drop_one h10
  norm_num at h11
  have h12 := drop_one h11
  norm_num at h12
  obtain ⟨v12, r12⟩ := read_ushortE_raw h12
  have h13 := drop_one h12
  norm_num at h13
  have h14 := drop_one h13
  norm_num at h14
  have rdb : skip_datablock src (pos + 14) = .ok (pos + 18 + L) := by
    have rl := read_ulongE_drop hL h14
    simp only [skip_datablock, rl]
  simp only [skip_overlays, r1, r2, r3, r4, r5, r6, r8, r10, r12]
  norm_num [rdb, skip_overlays]

theorem read_directory_error_to_ok (src : List Nat) (atlas : Atlas) (ac : Nat) :
    ∀ (n : Nat) (model : Model) (pos : Nat) (e : DErr) (m : Model),
      read_directory src atlas ac n model pos = .error (e, m) →
      ∃ k p, k ≤ n ∧ read_directory src atlas ac k model pos = .ok (m, p) := by
  intro n
  induction n with
  | zero =>
    intro model pos e m h
    simp [read_directory] at h
  | succ n ih =>
    intro model pos e m h
    rw [read_directory] at h
    cases hpe : process_entry src atlas ac model pos with
    | error e' =>
      rw [hpe] at h
      have hm : model = m := by
        have := Except.error.inj h
        exact congrArg Prod.snd this
      exact ⟨0, pos, Nat.zero_le _, by rw [hm]; rfl⟩
    | ok r =>
      obtain ⟨m1, p1⟩ := r
      rw [hpe] at h
      obtain ⟨k, p, hk, hok⟩ := ih m1 p1 e m h
      exact ⟨k + 1, p, by omega, by rw [read_directory, hpe]; exact hok⟩

theorem chStarts_iff (p s : List Char) :
    Acd.chStarts p s = true ↔ ∃ t, s = p ++ t := by
  induction p generalizing s with
  | nil => simp [Acd.chStarts]
  | cons c cs ih =>
    cases s with
    | nil => simp [Acd.chStarts]
    | cons d ds =>
      simp only [Acd.chStarts, Bool.and_eq_true, decide_eq_true_eq, ih, List.cons_append,
        List.cons.injEq]
      constructor
      · rintro ⟨rfl, t, rfl⟩
        exact ⟨t, rfl, rfl⟩
      · rintro ⟨t, h1, h2⟩
        exact ⟨h1.symm, t, h2⟩

theorem length_encode_string (s : PyStr) :
    (encode_string s).length = if s = [] then 4 else 4 + 2 * s.length + 2 := by
  rcases eq_or_ne s [] with hs | hs
  · simp [hs, encode_string, length_encU32]
  · simp [hs, encode_string, length_encU32, length_encUnits]
    omega

theorem goodunit_lt (u : Nat) (h : GoodUnit u) : u < 65536 := by
  rcases h with h | h
  · omega
  · omega

end Pf


namespace Claims

open Acs Spec Pf

/-- C1.  The claim says the binary decode either returns the complete
model or signals a fatal error, never handing the caller a partially
built model.  Counterexample: on `c1src` (a container whose directory
announces two animations but is truncated before the second entry) the
decode hits end-of-source — a fatal `struct.error` condition — yet
`read_acs_animations` still returns a non-empty, partially built model
(animation `"A"` only) as its ordinary return value; the error exists
only as the printed diagnostic. -/
theorem C1_cex :
    (read_acs_animations c1src []).2 = some .structErr ∧
    (read_acs_animations c1src []).1 = [([65], [])] ∧
    (read_acs_animations c1src []).1 ≠ [] := by decide

/-- C1 (amended).  When a read runs past end-of-source, the decode loop
aborts, but `read_acs_animations` still returns the partially built
model to the caller (with the fatal diagnostic only alongside): the
returned model is exactly the model produced by a successfully decoded
prefix of the directory walk. -/
theorem C1_amended_partial_model :
    (∀ (src : List Nat) (atlas : Atlas) (e : DErr) (m : Model),
       decode_acs src atlas = .error (e, m) →
       read_acs_animations src atlas = (m, some e)) ∧
    (∀ (src : List Nat) (atlas : Atlas) (ac n : Nat) (model : Model) (pos : Nat)
       (e : DErr) (m : Model),
       read_directory src atlas ac n model pos = .error (e, m) →
       ∃ k p, k ≤ n ∧ read_directory src atlas ac k model pos = .ok (m, p)) := by
  constructor
  · intro src atlas e m h
    simp [read_acs_animations, h]
  · intro src atlas ac n model pos e m h
    exact read_directory_error_to_ok src atlas ac n model pos e m h

/-- C1 witness: the amended statement applied to the concrete truncated
container `c1src`. -/
theorem C1_witness :
    read_acs_animations c1src [] = ([([65], [])], some .structErr) ∧
    ∃ k p, k ≤ 2 ∧ read_directory c1src [] 0 k [] 40 = .ok ([([65], [])], p) :=
  ⟨C1_amended_partial_model.1 c1src [] .structErr [([65], [])] (by decide),
   C1_amended_partial_model.2 c1src [] 0 2 [] 40 .structErr [([65], [])] (by decide)⟩

/-- C2.  The claim says a non-negative exit index — including 0 — is
stored verbatim as the frame's `exitBranch`.  Counterexample: a frame
whose exit-index field is 0 decodes with no `exitBranch` at all, because
`if exit_frame_index and exit_frame_index >= 0` is falsy at 0. -/
theorem C2_cex :
    read_frame (frameBytes 0 5 0) [] 0 0 =
      .ok ({ images := [], sound := none, duration := 50, exitBranch := none,
             branching := none }, 10) := by decide

/-- C2 (amended).  The exit index is read as a signed 16-bit integer;
the frame's `exitBranch` is present (and verbatim) exactly when the
index is strictly positive — zero and negative values leave the frame
with no `exitBranch`. -/
theorem C2_amended (a d : Nat) (x : Int) (ac : Nat) (atlas : Atlas) (fr : Frame) (p : Nat)
    (ha : a < 65536) (hd : d < 65536) (hlo : -32768 ≤ x) (hhi : x < 32768)
    (h : read_frame (frameBytes a d x) atlas ac 0 = .ok (fr, p)) :
    fr.exitBranch = if 0 < x then some x else none := by
  have hm := read_frame_frameBytes a d x ac atlas [] ha hd hlo hhi
  rw [List.append_nil] at hm
  have h3 := Except.ok.inj (hm.symm.trans h)
  have hf := congrArg (fun q : Frame × Nat => q.1.exitBranch) h3
  simpa using hf.symm

/-- C2 witness: the amended statement applied at exit index 7 (stored
verbatim because it is positive). -/
theorem C2_witness :
    ({ images := [], sound := none, duration := 50, exitBranch := some 7,
       branching := none } : Frame).exitBranch =
      if (0 : Int) < 7 then some (7 : Int) else none :=
  C2_amended 0 5 7 0 [] _ 10 (by decide) (by decide) (by decide) (by decide) (by decide)

/-- C3.  The claim says an atlas miss is non-fatal: a placeholder is
recorded and decoding continues.  Counterexample: on `c3src` (a
well-formed container whose only frame references image index 5) with an
empty atlas, the decode aborts with the `KeyError` for `"0005.bmp"` and
returns no animation at all — no placeholder, no continuation. -/
theorem C3_cex :
    read_acs_animations c3src [] = ([], some (.keyErr (bmpKey 5))) ∧
    bmpKey 5 = "0005.bmp" := by decide

/-- C3 (amended).  The u32 image index is resolved against the atlas via
the `"%04d.bmp"` key; when the key is absent the lookup raises a
`KeyError` that aborts the image-list decode (and with it the whole
container decode): no placeholder is recorded. -/
theorem C3_amended (idx b1 b2 b3 b4 : Nat) (k : Nat) (rest : List Nat) (atlas : Atlas)
    (hidx : idx < 4294967296)
    (hmiss : lookupKey atlas (bmpKey idx) = none) :
    read_frame_images (encU32 idx ++ b1 :: b2 :: b3 :: b4 :: rest) atlas (k + 1) 0 =
      .error (.keyErr (bmpKey idx)) := by
  have h0 : (encU32 idx ++ b1 :: b2 :: b3 :: b4 :: rest).drop 0 =
      encU32 idx ++ (b1 :: b2 :: b3 :: b4 :: rest) := by simp
  have r1 := read_ulongE_drop hidx h0
  norm_num at r1
  have h1 := drop_of_append h0
  rw [length_encU32] at h1
  norm_num at h1
  obtain ⟨vx, r2⟩ := read_shortE_raw h1
  have h2 := drop_one h1
  norm_num at h2
  have h3 := drop_one h2
  norm_num at h3
  obtain ⟨vy, r3⟩ := read_shortE_raw h3
  simp only [read_frame_images, r1, r2, r3, hmiss]

/-- C3 witness: the amended statement applied to image index 5 and an
empty atlas. -/
theorem C3_witness :
    read_frame_images (encU32 5 ++ 0 :: 0 :: 0 :: 0 :: []) [] 1 0 =
      .error (.keyErr (bmpKey 5)) :=
  C3_amended 5 0 0 0 0 0 [] [] (by decide) (by decide)

/-- C4.  The claim says each overlay entry has a fixed 9-byte prefix.
Counterexample: a one-entry overlay list of fourteen zero bytes is
consumed to cursor 15 (count byte plus a 14-byte entry), not to cursor
10 as a 9-byte prefix would give. -/
theorem C4_cex :
    skip_acsoverlayinfo_list c4src 0 = .ok 15 ∧
    skip_acsoverlayinfo_list c4src 0 ≠ .ok 10 := by decide

/-- C4 (amended).  The overlay skip reads a u8 count; each entry has a
fixed 14-byte prefix holding the nine fields (type, replace-flag,
image-index, unknown byte, region-present flag, x-offset, y-offset,
width, height), followed — exactly when the region-present flag byte is
non-zero — by one u32-length-prefixed opaque block, leaving the cursor
immediately after the list. -/
theorem C4_amended :
    (∀ (t rb i1 i2 u x1 x2 y1 y2 w1 w2 g1 g2 : Nat) (rest : List Nat),
       skip_acsoverlayinfo_list
         (1 :: t :: rb :: i1 :: i2 :: u :: 0 :: x1 :: x2 :: y1 :: y2 :: w1 :: w2 ::
           g1 :: g2 :: rest) 0 = .ok 15) ∧
    (∀ (t rb i1 i2 u f x1 x2 y1 y2 w1 w2 g1 g2 L : Nat) (rest : List Nat),
       f ≠ 0 → L < 4294967296 →
       skip_acsoverlayinfo_list
         (1 :: t :: rb :: i1 :: i2 :: u :: f :: x1 :: x2 :: y1 :: y2 :: w1 :: w2 ::
           g1 :: g2 :: (encU32 L ++ rest)) 0 = .ok (19 + L)) ∧
    (∀ rest : List Nat, skip_acsoverlayinfo_list (0 :: rest) 0 = .ok 1) := by
  refine ⟨?_, ?_, ?_⟩
  · intro t rb i1 i2 u x1 x2 y1 y2 w1 w2 g1 g2 rest
    have hd0 : (1 :: t :: rb :: i1 :: i2 :: u :: 0 :: x1 :: x2 :: y1 :: y2 :: w1 :: w2 ::
        g1 :: g2 :: rest).drop 0 =
        1 :: (t :: rb :: i1 :: i2 :: u :: 0 :: x1 :: x2 :: y1 :: y2 :: w1 :: w2 ::
          g1 :: g2 :: rest) := rfl
    have rb1 := read_byteE_drop hd0
    norm_num at rb1
    have hd1 : (1 :: t :: rb :: i1 :: i2 :: u :: 0 :: x1 :: x2 :: y1 :: y2 :: w1 :: w2 ::
        g1 :: g2 :: rest).drop 1 =
        t :: rb :: i1 :: i2 :: u :: 0 :: x1 :: x2 :: y1 :: y2 :: w1 :: w2 ::
        g1 :: g2 :: rest := rfl
    have hsk := skip_overlays_one_clear hd1
    simp only [skip_acsoverlayinfo_list, rb1, hsk]
  · intro t rb i1 i2 u f x1 x2 y1 y2 w1 w2 g1 g2 L rest hf hL
    have hd0 : (1 :: t :: rb :: i1 :: i2 :: u :: f :: x1 :: x2 :: y1 :: y2 :: w1 :: w2 ::
        g1 :: g2 :: (encU32 L ++ rest)).drop 0 =
        1 :: (t :: rb :: i1 :: i2 :: u :: f :: x1 :: x2 :: y1 :: y2 :: w1 :: w2 ::
          g1 :: g2 :: (encU32 L ++ rest)) := rfl
    have rb1 := read_byteE_drop hd0
    norm_num at rb1
    have hd1 : (1 :: t :: rb :: i1 :: i2 :: u :: f :: x1 :: x2 :: y1 :: y2 :: w1 :: w2 ::
        g1 :: g2 :: (encU32 L ++ rest)).drop 1 =
        t :: rb :: i1 :: i2 :: u :: f :: x1 :: x2 :: y1 :: y2 :: w1 :: w2 ::
        g1 :: g2 :: (encU32 L ++ rest) := rfl
    have hsk := skip_overlays_one_flag hf hL hd1
    simp only [skip_acsoverlayinfo_list, rb1, hsk]
  · intro rest
    have hd0 : (0 :: rest).drop 0 = 0 :: rest := rfl
    have rb1 := read_byteE_drop hd0
    norm_num at rb1
    simp only [skip_acsoverlayinfo_list, rb1, skip_overlays]

/-- C4 witness: the amended statement applied to a concrete entry with
the region-present flag set and a 3-byte region block. -/
theorem C4_witness :
    skip_acsoverlayinfo_list
      (1 :: 0 :: 0 :: 0 :: 0 :: 0 :: 1 :: 0 :: 0 :: 0 :: 0 :: 0 :: 0 :: 0 :: 0 ::
        (encU32 3 ++ [9, 9, 9])) 0 = .ok (19 + 3) :=
  C4_amended.2.1 0 0 0 0 0 1 0 0 0 0 0 0 0 0 3 [9, 9, 9] (by decide) (by decide)


/-- C5.  `read_string` round-trips: decoding the spec's encoding of `s`
(4-byte character count, UTF-16-LE code units, 0x0000 terminator, with a
zero count carrying no data and no terminator) returns `s` exactly,
consuming exactly the encoding; a zero count returns the empty string
with no further reads (the result is independent of whatever follows the
count); and a non-zero terminator still returns the decoded text of the
2n-byte region, flagging the non-fatal warning instead of aborting. -/
theorem C5_read_string_roundtrip :
    (∀ (s : PyStr) (rest : List Nat),
       (∀ u ∈ s, GoodUnit u) → s.length < 4294967296 →
       read_string (encode_string s ++ rest) 0 = (s, (encode_string s).length, false)) ∧
    (∀ junk : List Nat, read_string (encU32 0 ++ junk) 0 = ([], 4, false)) ∧
    (∀ (s : PyStr) (t1 t2 : Nat) (rest : List Nat),
       (∀ u ∈ s, GoodUnit u) → s.length < 4294967296 → s ≠ [] → ¬(t1 = 0 ∧ t2 = 0) →
       read_string (encU32 s.length ++ encUnits s ++ [t1, t2] ++ rest) 0 =
         (s, 4 + 2 * s.length + 2, true)) := by
  refine ⟨?_, ?_, ?_⟩
  · intro s rest hu hn
    have h0 : (encode_string s ++ rest).drop 0 = encode_string s ++ rest := rfl
    have h := read_string_drop (fun u hm => goodunit_lt u (hu u hm)) hn h0
    simpa using h
  · intro junk
    have h0 : (encU32 0 ++ junk).drop 0 = encode_string [] ++ junk := rfl
    have h := read_string_drop (s := []) (by intro u hm; cases hm) (by norm_num) h0
    simpa [encode_string, length_encU32] using h
  · intro s t1 t2 rest hu hn hs hterm
    have h0 : (encU32 s.length ++ encUnits s ++ [t1, t2] ++ rest).drop 0 =
        encU32 s.length ++ encUnits s ++ [t1, t2] ++ rest := rfl
    have h := read_string_badterm (fun u hm => goodunit_lt u (hu u hm)) hn hs hterm h0
    simpa using h

/-- C5 witness: the round-trip at `s = "Hi"` (code units 72, 105), the
zero count with trailing junk, and the bad-terminator case. -/
theorem C5_witness :
    read_string (encode_string [72, 105] ++ [9, 9]) 0 =
      ([72, 105], (encode_string [72, 105]).length, false) ∧
    read_string (encU32 0 ++ [7]) 0 = ([], 4, false) ∧
    read_string (encU32 ([72, 105] : PyStr).length ++ encUnits [72, 105] ++ [1, 0] ++ []) 0 =
      ([72, 105], 4 + 2 * ([72, 105] : PyStr).length + 2, true) :=
  ⟨C5_read_string_roundtrip.1 [72, 105] [9, 9] (by decide) (by decide),
   C5_read_string_roundtrip.2.1 [7],
   C5_read_string_roundtrip.2.2 [72, 105] 1 0 [] (by decide) (by decide) (by decide)
     (by decide)⟩

/-- C6.  Durations are stored as `source value * 10` (hundredths of a
second to milliseconds) on both paths: a binary frame with duration
field `d` decodes to `duration = d * 10`, and a text-path line
`Duration = v` stores `duration = v * 10`. -/
theorem C6_duration_times_ten :
    (∀ (a d : Nat) (x : Int) (ac : Nat) (atlas : Atlas) (fr : Frame) (p : Nat),
       a < 65536 → d < 65536 → -32768 ≤ x → x < 32768 →
       read_frame (frameBytes a d x) atlas ac 0 = .ok (fr, p) →
       fr.duration = d * 10) ∧
    (∀ (atlas : Atlas) (st : Acd.AcdState) (line raw : List Char) (v : Int),
       st.in_animation = true → st.in_frame = true →
       Acd.chStarts "Duration =".data (Acd.chStrip line) = true →
       (Acd.splitChar '=' (Acd.chStrip line)).get? 1 = some raw →
       Acd.parseInt (Acd.chStrip raw) = some v →
       Acd.process_line atlas st line =
         .ok { st with frame_data := { st.frame_data with duration := some (v * 10) } }) := by
  constructor
  · intro a d x ac atlas fr p ha hd hlo hhi h
    have hm := read_frame_frameBytes a d x ac atlas [] ha hd hlo hhi
    rw [List.append_nil] at hm
    have h3 := Except.ok.inj (hm.symm.trans h)
    have hf := congrArg (fun q : Frame × Nat => q.1.duration) h3
    simpa using hf.symm
  · intro atlas st line raw v hin hfr hst hsplit hparse
    obtain ⟨t, ht⟩ := (chStarts_iff _ _).mp hst
    rw [ht] at hsplit
    simp only [List.cons_append, List.nil_append, List.get?_eq_getElem?] at hsplit
    simp only [Acd.process_line, ht, hin, hfr, Acd.chStarts, List.cons_append]
    simp [Acd.chStarts, hsplit, hparse]

/-- C6 witness: binary duration 12 maps to 120 ms, and the text line
`Duration = 12` stores 120 ms. -/
theorem C6_witness :
    ({ images := [], sound := none, duration := 120, exitBranch := none,
       branching := none } : Frame).duration = 12 * 10 ∧
    Acd.process_line []
      { Acd.initAcdState with in_animation := true, in_frame := true }
      "Duration = 12".data =
      .ok { Acd.initAcdState with
            in_animation := true, in_frame := true,
            frame_data := { Acd.emptyFrameData with duration := some ((12 : Int) * 10) } } :=
  ⟨C6_duration_times_ten.1 0 12 (-1) 0 [] _ 10 (by decide) (by decide) (by decide)
     (by decide) (by decide),
   C6_duration_times_ten.2 [] { Acd.initAcdState with in_animation := true, in_frame := true }
     "Duration = 12".data " 12".data 12 (by decide) (by decide) (by decide) (by decide)
     (by decide)⟩


/-- C7.  On the text path, an `ExitBranch = v` line with integer value
`v` stores `exitBranch = v - 1`, and a `BranchTo = v` line appends a
branch entry with `frameIndex = v - 1`; a line whose value does not
parse as an integer leaves the state unchanged (no exit branch is set,
no branch entry is appended). -/
theorem C7_one_based_conversion :
    (∀ (atlas : Atlas) (st : Acd.AcdState) (line raw : List Char) (v : Int),
       st.in_animation = true → st.in_frame = true →
       Acd.chStarts "ExitBranch =".data (Acd.chStrip line) = true →
       (Acd.splitChar '=' (Acd.chStrip line)).get? 1 = some raw →
       Acd.parseInt (Acd.chStrip raw) = some v →
       Acd.process_line atlas st line =
         .ok { st with frame_data := { st.frame_data with exitBranch := some (v - 1) } }) ∧
    (∀ (atlas : Atlas) (st : Acd.AcdState) (line raw : List Char),
       st.in_animation = true → st.in_frame = true →
       Acd.chStarts "ExitBranch =".data (Acd.chStrip line) = true →
       (Acd.splitChar '=' (Acd.chStrip line)).get? 1 = some raw →
       Acd.parseInt (Acd.chStrip raw) = none →
       Acd.process_line atlas st line = .ok st) ∧
    (∀ (atlas : Atlas) (st : Acd.AcdState) (line raw : List Char) (v : Int),
       st.in_animation = true → st.in_frame = true →
       Acd.chStarts "BranchTo =".data (Acd.chStrip line) = true →
       (Acd.splitChar '=' (Acd.chStrip line)).get? 1 = some raw →
       Acd.parseInt (Acd.chStrip raw) = some v →
       Acd.process_line atlas st line =
         .ok { st with frame_data :=
                 { st.frame_data with
                   branching := some (st.frame_data.branching.getD []
                                       ++ [{ frameIndex := v - 1, weight := none }]) } }) ∧
    (∀ (atlas : Atlas) (st : Acd.AcdState) (line raw : List Char),
       st.in_animation = true → st.in_frame = true →
       Acd.chStarts "BranchTo =".data (Acd.chStrip line) = true →
       (Acd.splitChar '=' (Acd.chStrip line)).get? 1 = some raw →
       Acd.parseInt (Acd.chStrip raw) = none →
       Acd.process_line atlas st line = .ok st) := by
  refine ⟨?_, ?_, ?_, ?_⟩ <;>
    intro atlas st line raw
  on_goal 1 => intro v
  on_goal 3 => intro v
  all_goals
    intro hin hfr hst hsplit hparse
    obtain ⟨t, ht⟩ := (chStarts_iff _ _).mp hst
    rw [ht] at hsplit
    simp only [List.cons_append, List.nil_append, List.get?_eq_getElem?] at hsplit
    simp only [Acd.process_line, ht, hin, hfr, Acd.chStarts, List.cons_append]
    simp [Acd.chStarts, hsplit, hparse]

/-- C7 witness: `ExitBranch = 3` stores 2; `ExitBranch = x3` is ignored;
`BranchTo = 3` appends frame index 2; `BranchTo = ?` is ignored. -/
theorem C7_witness :
    Acd.process_line [] { Acd.initAcdState with in_animation := true, in_frame := true }
        "ExitBranch = 3".data =
      .ok { Acd.initAcdState with
            in_animation := true, in_frame := true,
            frame_data := { Acd.emptyFrameData with exitBranch := some ((3 : Int) - 1) } } ∧
    Acd.process_line [] { Acd.initAcdState with in_animation := true, in_frame := true }
        "ExitBranch = x3".data =
      .ok { Acd.initAcdState with in_animation := true, in_frame := true } ∧
    Acd.process_line [] { Acd.initAcdState with in_animation := true, in_frame := true }
        "BranchTo = 3".data =
      .ok { Acd.initAcdState with
            in_animation := true, in_frame := true,
            frame_data :=
              { Acd.emptyFrameData with
                branching := some ((Acd.emptyFrameData.branching.getD [])
                                    ++ [{ frameIndex := (3 : Int) - 1, weight := none }]) } } ∧
    Acd.process_line [] { Acd.initAcdState with in_animation := true, in_frame := true }
        "BranchTo = ?".data =
      .ok { Acd.initAcdState with in_animation := true, in_frame := true } :=
  ⟨C7_one_based_conversion.1 [] _ "ExitBranch = 3".data " 3".data 3
     (by decide) (by decide) (by decide) (by decide) (by decide),
   C7_one_based_conversion.2.1 [] _ "ExitBranch = x3".data " x3".data
     (by decide) (by decide) (by decide) (by decide) (by decide),
   C7_one_based_conversion.2.2.1 [] _ "BranchTo = 3".data " 3".data 3
     (by decide) (by decide) (by decide) (by decide) (by decide),
   C7_one_based_conversion.2.2.2 [] _ "BranchTo = ?".data " ?".data
     (by decide) (by decide) (by decide) (by decide) (by decide)⟩

/-- C8.  A binary frame's u16 sound index resolves to the `"%04d.wav"`
filename if and only if it is strictly below the audio count; otherwise
the frame carries no sound. -/
theorem C8_sound_index (a d : Nat) (x : Int) (ac : Nat) (atlas : Atlas) (fr : Frame) (p : Nat)
    (ha : a < 65536) (hd : d < 65536) (hlo : -32768 ≤ x) (hhi : x < 32768)
    (h : read_frame (frameBytes a d x) atlas ac 0 = .ok (fr, p)) :
    fr.sound = (if a < ac then some (wavKey a) else none) ∧
    (fr.sound = some (wavKey a) ↔ a < ac) := by
  have hm := read_frame_frameBytes a d x ac atlas [] ha hd hlo hhi
  rw [List.append_nil] at hm
  have h3 := Except.ok.inj (hm.symm.trans h)
  have hf := congrArg (fun q : Frame × Nat => q.1.sound) h3
  simp only at hf
  refine ⟨hf.symm, ?_⟩
  rw [← hf]
  by_cases hac : a < ac
  · simp [hac]
  · simp [hac]

/-- C8 witness: audio index 3 with audio count 5 resolves to
`"0003.wav"`; the iff holds at that instance. -/
theorem C8_witness :
    ({ images := [], sound := some (wavKey 3), duration := 120, exitBranch := some 7,
       branching := none } : Frame).sound = (if 3 < 5 then some (wavKey 3) else none) ∧
    (({ images := [], sound := some (wavKey 3), duration := 120, exitBranch := some 7,
        branching := none } : Frame).sound = some (wavKey 3) ↔ 3 < 5) :=
  C8_sound_index 3 12 7 5 [] _ 10 (by decide) (by decide) (by decide) (by decide) (by decide)


/-- C9.  A zero-size locator is never dereferenced: the image/audio
count probe returns 0 and leaves the cursor untouched (and its result is
independent of the stored offset), and a directory entry whose info
locator has size 0 contributes nothing to the model, the cursor simply
moving to the resume position after the entry. -/
theorem C9_zero_size_locator :
    (∀ (src : List Nat) (off pos : Nat),
       get_list_count src ⟨off, 0⟩ pos = .ok (0, pos)) ∧
    (∀ (src : List Nat) (off1 off2 pos : Nat),
       get_list_count src ⟨off1, 0⟩ pos = get_list_count src ⟨off2, 0⟩ pos) ∧
    (∀ (nm : PyStr) (off : Nat) (rest : List Nat) (atlas : Atlas) (ac : Nat) (model : Model),
       (∀ u ∈ nm, GoodUnit u) → nm.length < 1048576 → off < 4294967296 →
       process_entry (encode_string nm ++ (encU32 off ++ (encU32 0 ++ rest))) atlas ac model 0 =
         .ok (model, (encode_string nm).length + 8)) := by
  refine ⟨?_, ?_, ?_⟩
  · intro src off pos
    simp [get_list_count]
  · intro src off1 off2 pos
    simp [get_list_count]
  · intro nm off rest atlas ac model hu hlen hoff
    have h0 : (encode_string nm ++ (encU32 off ++ (encU32 0 ++ rest))).drop 0 =
        encode_string nm ++ (encU32 off ++ (encU32 0 ++ rest)) := rfl
    have rs := read_string_drop
      (fun u hm => goodunit_lt u (hu u hm)) (by omega) h0
    rw [Nat.zero_add] at rs
    have h1 := drop_of_append h0
    rw [Nat.zero_add] at h1
    have r1 := read_ulongE_drop hoff h1
    have h2 := drop_of_append h1
    rw [length_encU32] at h2
    have r2 := read_ulongE_drop (by norm_num) h2
    simp only [process_entry, rs, read_locator, r1, r2]
    norm_num

/-- C9 witness: the probe at a zero-size locator with offset 999, and a
size-0 directory entry (name code unit 65, offset 77) leaving the model
(one existing animation) unchanged. -/
theorem C9_witness :
    get_list_count [1, 2, 3] ⟨999, 0⟩ 5 = .ok (0, 5) ∧
    get_list_count [1, 2, 3] ⟨999, 0⟩ 5 = get_list_count [1, 2, 3] ⟨0, 0⟩ 5 ∧
    process_entry (encode_string [65] ++ (encU32 77 ++ (encU32 0 ++ []))) [] 0 [([66], [])] 0 =
      .ok ([([66], [])], (encode_string [65]).length + 8) :=
  ⟨C9_zero_size_locator.1 [1, 2, 3] 999 5,
   C9_zero_size_locator.2.1 [1, 2, 3] 999 0 5,
   C9_zero_size_locator.2.2 [65] 77 [] [] 0 [([66], [])]
     (by decide) (by decide) (by decide)⟩

/-- C10.  An animation whose canonical name (read from its info block)
is empty is omitted from the model even though its info block is fully
decoded; an animation with a non-empty canonical name is recorded under
that name.  The source is a directory entry whose info locator points
just past the entry, at an info block with transition byte `t`, empty
return name, and zero frames. -/
theorem C10_empty_name_omitted :
    (∀ (nmE : PyStr) (t : Nat) (atlas : Atlas) (ac : Nat) (model : Model),
       (∀ u ∈ nmE, GoodUnit u) → nmE.length < 1048576 →
       process_entry
         (encode_string nmE ++ (encU32 ((encode_string nmE).length + 8) ++ (encU32 1 ++
           (encode_string [] ++ ([t] ++ (encode_string [] ++ encU16 0)))))) atlas ac model 0 =
         .ok (model, (encode_string nmE).length + 8)) ∧
    (∀ (nmE nmU : PyStr) (t : Nat) (atlas : Atlas) (ac : Nat) (model : Model),
       (∀ u ∈ nmE, GoodUnit u) → nmE.length < 1048576 →
       (∀ u ∈ nmU, GoodUnit u) → nmU.length < 1048576 → nmU ≠ [] →
       process_entry
         (encode_string nmE ++ (encU32 ((encode_string nmE).length + 8) ++ (encU32 1 ++
           (encode_string nmU ++ ([t] ++ (encode_string [] ++ encU16 0)))))) atlas ac model 0 =
         .ok (dict_set model nmU [], (encode_string nmE).length + 8)) := by
  have main : ∀ (nmE nmU : PyStr) (t : Nat) (atlas : Atlas) (ac : Nat) (model : Model),
      (∀ u ∈ nmE, GoodUnit u) → nmE.length < 1048576 →
      (∀ u ∈ nmU, GoodUnit u) → nmU.length < 1048576 →
      process_entry
        (encode_string nmE ++ (encU32 ((encode_string nmE).length + 8) ++ (encU32 1 ++
          (encode_string nmU ++ ([t] ++ (encode_string [] ++ encU16 0)))))) atlas ac model 0 =
        .ok ((if nmU ≠ [] then dict_set model nmU [] else model),
             (encode_string nmE).length + 8) := by
    intro nmE nmU t atlas ac model huE hlenE huU hlenU
    have hLE := length_encode_string nmE
    have hLU := length_encode_string nmU
    have hbound : (encode_string nmE).length + 8 < 4294967296 := by
      rw [hLE]
      split_ifs <;> omega
    have h0 : (encode_string nmE ++ (encU32 ((encode_string nmE).length + 8) ++ (encU32 1 ++
        (encode_string nmU ++ ([t] ++ (encode_string [] ++ encU16 0)))))).drop 0 =
        encode_string nmE ++ (encU32 ((encode_string nmE).length + 8) ++ (encU32 1 ++
        (encode_string nmU ++ ([t] ++ (encode_string [] ++ encU16 0))))) := rfl
    have rs1 := read_string_drop
      (fun u hm => goodunit_lt u (huE u hm)) (by omega) h0
    rw [Nat.zero_add] at rs1
    have h1 := drop_of_append h0
    rw [Nat.zero_add] at h1
    have r1 := read_ulongE_drop hbound h1
    have h2 := drop_of_append h1
    rw [length_encU32] at h2
    have r2 := read_ulongE_drop (by norm_num) h2
    have h3 := drop_of_append h2
    rw [length_encU32] at h3
    have h3' : (encode_string nmE ++ (encU32 ((encode_string nmE).length + 8) ++ (encU32 1 ++
        (encode_string nmU ++ ([t] ++ (encode_string [] ++ encU16 0)))))).drop
        ((encode_string nmE).length + 8) =
        encode_string nmU ++ ([t] ++ (encode_string [] ++ encU16 0)) := by
      rw [show (encode_string nmE).length + 8 = (encode_string nmE).length + 4 + 4 by omega]
      exact h3
    have rs2 := read_string_drop
      (fun u hm => goodunit_lt u (huU u hm)) (by omega) h3'
    have h4 := drop_of_append h3'
    have h4' : _ = t :: (encode_string [] ++ encU16 0) := h4
    have r3 := read_byteE_drop h4'
    have h5 := drop_one h4'
    have rs3 := read_string_drop (s := [])
      (by intro u hm; cases hm) (by norm_num) h5
    have h6 := drop_of_append h5
    have r4 := read_ushortE_last (by norm_num) h6
    simp only [process_entry, rs1, read_locator, r1, r2, rs2, r3, rs3, r4, read_frames]
    simp only [ne_eq, ite_not]
    norm_num
  constructor
  · intro nmE t atlas ac model huE hlenE
    have h := main nmE [] t atlas ac model huE hlenE (by intro u hm; cases hm) (by norm_num)
    simpa using h
  · intro nmE nmU t atlas ac model huE hlenE huU hlenU hne
    have h := main nmE nmU t atlas ac model huE hlenE huU hlenU
    simpa [hne] using h

/-- C10 witness: with entry name code unit 66, an empty canonical name
leaves the model empty, and canonical name `"A"` (unit 65) records the
animation. -/
theorem C10_witness :
    process_entry
      (encode_string [66] ++ (encU32 ((encode_string [66]).length + 8) ++ (encU32 1 ++
        (encode_string [] ++ ([1] ++ (encode_string [] ++ encU16 0)))))) [] 0 [] 0 =
      .ok ([], (encode_string [66]).length + 8) ∧
    process_entry
      (encode_string [66] ++ (encU32 ((encode_string [66]).length + 8) ++ (encU32 1 ++
        (encode_string [65] ++ ([1] ++ (encode_string [] ++ encU16 0)))))) [] 0 [] 0 =
      .ok (dict_set [] [65] [], (encode_string [66]).length + 8) :=
  ⟨C10_empty_name_omitted.1 [66] 1 [] 0 [] (by decide) (by decide),
   C10_empty_name_omitted.2 [66] [65] 1 [] 0 [] (by decide) (by decide) (by decide)
     (by decide) (by decide)⟩

end Claims
